import Mathlib

/-!
Verification of the `ips` utility (`src/main.go`): a shallow embedding of
the address collector, formatter and exit logic, with theorems about the
order and content of the collected records, the output formats, the
fail-fast error policy and the log-level mapping.

The program's two effectful inputs — the public-IP HTTP lookup and the OS
interface enumeration — are modelled by an explicit environment `Env`
holding their outcomes; the rest of the program is pure and is translated
function by function from the source.
-/

deriving instance DecidableEq for Except

namespace Ips

/-- The `ip` struct of the source: one collected record, with the textual
address and the interface label (an OS interface name or `"public"`). -/
structure Ip where
  Address : String
  Interface : String
deriving DecidableEq, Repr

/-- A Go slice of `*ip` (the `ips` type of the source): `none` models the
nil slice, `some l` a non-nil slice with elements `l`. The distinction
matters only to `json.Marshal`, which encodes a nil slice as `null` and an
empty non-nil slice as `[]`. -/
abbrev GoSlice := Option (List Ip)

/-- Go `append(s, x)`: appending to a nil slice yields a non-nil slice. -/
def GoSlice.append : GoSlice → Ip → GoSlice
  | none, x => some [x]
  | some l, x => some (l ++ [x])

/-- A loop of `append`s, one element at a time, in order. -/
def GoSlice.appendMany : GoSlice → List Ip → GoSlice
  | s, [] => s
  | s, x :: xs => GoSlice.appendMany (s.append x) xs

/-- Ranging over a slice: a nil slice ranges over nothing. -/
def GoSlice.toList : GoSlice → List Ip
  | none => []
  | some l => l

/-- One OS network interface as seen through `net.Interface`: its name and
the outcome of its `Addrs()` call (each address already rendered by
`addr.String()`). -/
structure NetIface where
  name : String
  addrsResult : Except String (List String)
deriving DecidableEq, Repr

/-- The effectful inputs of one run: the body of the HTTP response of the
public-IP service (or the transport/read error), and the outcome of
`net.Interfaces()`. -/
structure Env where
  publicResp : Except String String
  interfacesResult : Except String (List NetIface)
deriving DecidableEq, Repr

/-- Go `unicode.IsSpace`, as used by `strings.TrimSpace`: the Latin-1
white space characters plus the Unicode `White_Space` code points. -/
def goIsSpace (c : Char) : Bool :=
  c.toNat = 0x09 || c.toNat = 0x0A || c.toNat = 0x0B || c.toNat = 0x0C ||
  c.toNat = 0x0D || c.toNat = 0x20 || c.toNat = 0x85 || c.toNat = 0xA0 ||
  c.toNat = 0x1680 || (0x2000 ≤ c.toNat && c.toNat ≤ 0x200A) ||
  c.toNat = 0x2028 || c.toNat = 0x2029 || c.toNat = 0x202F ||
  c.toNat = 0x205F || c.toNat = 0x3000

/-- Go `strings.TrimSpace`: drop leading and trailing white space. -/
def trimSpace (s : String) : String :=
  String.mk (((s.toList.dropWhile goIsSpace).reverse.dropWhile goIsSpace).reverse)

/-- `getPublicIp` of the source: on a successful GET it returns the record
`{Address: TrimSpace(body), Interface: "public"}` and a nil error; on any
failure a nil record and the error. Modelled on the pair
`(*ip, error)` as `(Option Ip, Option String)`. -/
def getPublicIp (env : Env) : Option Ip × Option String :=
  match env.publicResp with
  | .error e => (none, some e)
  | .ok body => (some { Address := trimSpace body, Interface := "public" }, none)

/-- The interface loop of `getIpAddresses` (source lines 121–135): for
each interface, a failing `Addrs()` aborts with the partial slice and the
error; an empty address list is skipped (`continue`); otherwise one record
per address is appended in order. -/
def collectLocal (acc : GoSlice) : List NetIface → GoSlice × Option String
  | [] => (acc, none)
  | i :: rest =>
    match i.addrsResult with
    | .error e => (acc, some e)
    | .ok addrs =>
      if addrs.isEmpty then collectLocal acc rest
      else
        collectLocal
          (acc.appendMany (addrs.map fun a => { Address := a, Interface := i.name })) rest

/-- The tail of `getIpAddresses` after the public-IP block (source lines
114–136): the public-only short circuit, then `net.Interfaces()` and the
interface loop. -/
def localStage (pub allFlag : Bool) (env : Env) (ips : GoSlice) : GoSlice × Option String :=
  if !allFlag && pub then (ips, none)
  else
    match env.interfacesResult with
    | .error e => (ips, some e)
    | .ok interfaces => collectLocal ips interfaces

/-- `getIpAddresses` of the source: start from `make(ips, 0)` (an empty
non-nil slice); if `public` or `all` is set, perform the lookup, abort on
its error, append the record when non-nil; then the local stage. -/
def getIpAddresses (pub allFlag : Bool) (env : Env) : GoSlice × Option String :=
  let ips : GoSlice := some []
  if pub || allFlag then
    match getPublicIp env with
    | (_, some e) => (ips, some e)
    | (publicIp, none) =>
      match publicIp with
      | some p => localStage pub allFlag env (ips.append p)
      | none => localStage pub allFlag env ips
  else localStage pub allFlag env ips

/-- Lower-case hexadecimal digit, as in Go's `encoding/json` hex table. -/
def hexDigit (n : Nat) : Char :=
  if n < 10 then Char.ofNat (48 + n) else Char.ofNat (87 + n)

/-- Go `encoding/json` string escaping for one character (HTML escaping
on, as `json.Marshal` uses): quote, backslash, newline, carriage return
and tab get short escapes; other control characters get `\u00XX`; the
HTML-sensitive characters and U+2028/U+2029 get `\uXXXX`; everything else
is written literally. -/
def escapeChar (c : Char) : String :=
  if c = '"' then "\\\""
  else if c = '\\' then "\\\\"
  else if c = '\n' then "\\n"
  else if c = '\r' then "\\r"
  else if c = '\t' then "\\t"
  else if c = '<' then "\\u003c"
  else if c = '>' then "\\u003e"
  else if c = '&' then "\\u0026"
  else if c.toNat < 0x20 then
    String.mk ['\\', 'u', '0', '0', hexDigit (c.toNat / 16), hexDigit (c.toNat % 16)]
  else if c.toNat = 0x2028 || c.toNat = 0x2029 then
    String.mk ['\\', 'u', '2', '0', '2', hexDigit (c.toNat % 16)]
  else String.singleton c

/-- Go JSON string literal for `s`. -/
def quoteGo (s : String) : String :=
  "\"" ++ String.join (s.toList.map escapeChar) ++ "\""

/-- `json.Marshal` of one `*ip` record: fields in declaration order,
`Address` then `Interface`, names capitalized as in the struct. -/
def ipJson (i : Ip) : String :=
  "\x7b\"Address\":" ++ quoteGo i.Address ++ ",\"Interface\":" ++ quoteGo i.Interface ++ "\x7d"

/-- `json.Marshal` of the `ips` slice: `null` for a nil slice, otherwise a
single-line array of the records in order. (For this element type the
encoder cannot fail: Lean strings are valid Unicode.) -/
def goMarshal : GoSlice → String
  | none => "null"
  | some l => "[" ++ String.intercalate "," (l.map ipJson) ++ "]"

/-- `ip.String()` of the source: `fmt.Sprintf("%s\t%s", Address, Interface)`. -/
def ipString (i : Ip) : String := i.Address ++ "\t" ++ i.Interface

/-- `run` of the source: collect; on a collection error log and return it
(no data output); otherwise print either the one JSON line or one text
line per record. The returned list is the sequence of data lines printed
on standard output. -/
def run (pub allFlag jsonOutput : Bool) (env : Env) : Except String (List String) :=
  match getIpAddresses pub allFlag env with
  | (_, some e) => .error e
  | (ips, none) =>
    if jsonOutput then .ok [goMarshal ips]
    else .ok (ips.toList.map ipString)

/-- The observable outcome of `main` after flag parsing: the process exit
code paired with the data lines printed (`os.Exit(1)` on a `run` error,
exit `0` otherwise). -/
def mainRun (pub allFlag jsonOutput : Bool) (env : Env) : Nat × List String :=
  match run pub allFlag jsonOutput env with
  | .error _ => (1, [])
  | .ok lines => (0, lines)

/-- The three logger verbosities the source can select. -/
inductive LogLevel
  | warn
  | info
  | debug
deriving DecidableEq, Repr

/-- The `switch logLevel` of `main` (source lines 52–61): `0` → warn,
`1` → info, `2` → debug, and the `default` branch → info. -/
def handlerLevel : Nat → LogLevel
  | 0 => .warn
  | 1 => .info
  | 2 => .debug
  | _ => .info

/-- Pure interface data (name, addresses) embedded as successful
`NetIface`s: the shape of an enumeration in which every `Addrs()` call
succeeds. -/
def okIfaces (ifs : List (String × List String)) : List NetIface :=
  ifs.map fun p => { name := p.1, addrsResult := .ok p.2 }

/-- The records a successful local enumeration contributes: for each
interface in order, one record per address in order. -/
def localRecords (ifs : List (String × List String)) : List Ip :=
  ifs.flatMap fun p => p.2.map fun a => { Address := a, Interface := p.1 }

/-- A loop of appends on a non-nil slice concatenates. -/
lemma appendMany_some (l acc : List Ip) :
    GoSlice.appendMany (some acc) l = some (acc ++ l) := by
  induction l generalizing acc with
  | nil => simp [GoSlice.appendMany]
  | cons x xs ih => simp [GoSlice.appendMany, GoSlice.append, ih]

/-- The interface loop on fully successful interface data appends exactly
the flattened records, in order, and reports no error. -/
lemma collectLocal_ok (ifs : List (String × List String)) (acc : List Ip) :
    collectLocal (some acc) (okIfaces ifs) = (some (acc ++ localRecords ifs), none) := by
  induction ifs generalizing acc with
  | nil => simp [collectLocal, okIfaces, localRecords]
  | cons hd tl ih =>
    rcases hd with ⟨n, as⟩
    cases as with
    | nil =>
      have e1 : collectLocal (some acc) (okIfaces ((n, []) :: tl))
          = collectLocal (some acc) (okIfaces tl) := rfl
      have e2 : localRecords ((n, []) :: tl) = localRecords tl := rfl
      rw [e1, e2, ih]
    | cons a rest =>
      have e1 : collectLocal (some acc) (okIfaces ((n, a :: rest) :: tl))
          = collectLocal
              (GoSlice.appendMany (some acc)
                ((a :: rest).map fun x => { Address := x, Interface := n }))
              (okIfaces tl) := rfl
      have e2 : localRecords ((n, a :: rest) :: tl)
          = ((a :: rest).map fun x => { Address := x, Interface := n }) ++ localRecords tl := rfl
      rw [e1, e2, appendMany_some, ih, List.append_assoc]

/-- Whatever the interface loop does, the records accumulated so far stay
at the front of the resulting slice. -/
lemma collectLocal_fst_extends (ifs : List NetIface) (acc : List Ip) :
    ∃ l, (collectLocal (some acc) ifs).fst = some (acc ++ l) := by
  induction ifs generalizing acc with
  | nil => exact ⟨[], by simp [collectLocal]⟩
  | cons i rest ih =>
    rcases h : i.addrsResult with e | addrs
    · exact ⟨[], by simp [collectLocal, h]⟩
    · cases he : addrs.isEmpty
      · obtain ⟨l, hl⟩ := ih (acc ++ addrs.map fun a => { Address := a, Interface := i.name })
        exact ⟨(addrs.map fun a => { Address := a, Interface := i.name }) ++ l,
          by simp [collectLocal, h, he, appendMany_some, hl, List.append_assoc]⟩
      · obtain ⟨l, hl⟩ := ih acc
        exact ⟨l, by simp [collectLocal, h, he, hl]⟩

/-- The local stage keeps the slice it was handed at the front. -/
lemma localStage_fst_extends (p a : Bool) (env : Env) (acc : List Ip) :
    ∃ l, (localStage p a env (some acc)).fst = some (acc ++ l) := by
  unfold localStage
  cases hc : (!a && p)
  · rcases hm : env.interfacesResult with e | ifsl
    · exact ⟨[], by simp [hc, hm]⟩
    · obtain ⟨l, hl⟩ := collectLocal_fst_extends ifsl acc
      exact ⟨l, by simp [hc, hm, hl]⟩
  · exact ⟨[], by simp [hc]⟩

/-- `getIpAddresses` never returns a nil slice: it starts from the
non-nil `make(ips, 0)` and only appends. -/
lemma getIpAddresses_fst_some (p a : Bool) (env : Env) :
    ∃ l, (getIpAddresses p a env).fst = some l := by
  unfold getIpAddresses
  cases hc : (p || a)
  · obtain ⟨l, hl⟩ := localStage_fst_extends p a env []
    exact ⟨[] ++ l, by simp [hc, hl]⟩
  · rcases hp : getPublicIp env with ⟨pIp, pErr⟩
    cases pErr with
    | some e => exact ⟨[], by simp [hc, hp]⟩
    | none =>
      cases pIp with
      | none =>
        obtain ⟨l, hl⟩ := localStage_fst_extends p a env []
        exact ⟨[] ++ l, by simp [hc, hp, hl]⟩
      | some r =>
        obtain ⟨l, hl⟩ := localStage_fst_extends p a env [r]
        exact ⟨[r] ++ l, by simp [hc, hp, GoSlice.append, hl]⟩

/-- C1: in every run with `all=true` (whatever `public` is), when the
public-IP lookup succeeds with body `body` and the local enumeration
succeeds with interface data `ifs`, the collected sequence is exactly the
public record first, then for each interface in enumeration order one
record per address in reported order. -/
theorem C1_all_mode_order (p : Bool) (body : String) (ifs : List (String × List String)) :
    getIpAddresses p true
      { publicResp := .ok body, interfacesResult := .ok (okIfaces ifs) }
      = (some ({ Address := trimSpace body, Interface := "public" } :: localRecords ifs),
         none) := by
  have e1 : getIpAddresses p true
      { publicResp := .ok body, interfacesResult := .ok (okIfaces ifs) }
      = collectLocal (some [{ Address := trimSpace body, Interface := "public" }])
          (okIfaces ifs) := by
    unfold getIpAddresses localStage getPublicIp
    simp [GoSlice.append]
  rw [e1, collectLocal_ok]
  simp

/-- C2: in every run with `public=true, all=false`, when the lookup
succeeds the collector returns, whatever the state of the local interface
table, exactly the one record `(trimSpace body, "public")` and no error:
it never touches local enumeration. -/
theorem C2_public_only (body : String) (ifr : Except String (List NetIface)) :
    getIpAddresses true false { publicResp := .ok body, interfacesResult := ifr }
      = (some [{ Address := trimSpace body, Interface := "public" }], none) := by
  unfold getIpAddresses localStage getPublicIp
  simp [GoSlice.append]

/-- C3 as stated is refuted by an OS interface literally named
`"public"`: with both flags false its records carry
`Interface = "public"` even though no public lookup happened. -/
theorem C3_counterexample :
    (getIpAddresses false false
      { publicResp := .error "lookup not performed",
        interfacesResult := .ok [{ name := "public", addrsResult := .ok ["10.0.0.1/24"] }] })
      = (some [{ Address := "10.0.0.1/24", Interface := "public" }], none)
    ∧ ({ Address := "10.0.0.1/24", Interface := "public" } : Ip).Interface = "public" := by
  constructor
  · decide
  · rfl

/-- C3 (amended): with `public=false, all=false` no public-IP lookup is
performed (the result is the same for every lookup outcome `pr`) and the
output is exactly the local enumeration in OS order; it contains a record
labelled `"public"` only if the OS itself reports an interface of that
name. -/
theorem C3_local_enumeration (pr : Except String String) (ifs : List (String × List String)) :
    getIpAddresses false false { publicResp := pr, interfacesResult := .ok (okIfaces ifs) }
      = (some (localRecords ifs), none)
    ∧ ((ifs.all fun q => q.1 != "public") = true →
        ((localRecords ifs).all fun r => r.Interface != "public") = true) := by
  constructor
  · have e1 : getIpAddresses false false
        { publicResp := pr, interfacesResult := .ok (okIfaces ifs) }
        = collectLocal (some []) (okIfaces ifs) := by
      unfold getIpAddresses localStage
      simp
    rw [e1, collectLocal_ok]
    simp
  · intro hq
    rw [List.all_eq_true] at hq ⊢
    intro r hr
    rw [localRecords, List.mem_flatMap] at hr
    obtain ⟨q, hmem, hr⟩ := hr
    rw [List.mem_map] at hr
    obtain ⟨a, _, rfl⟩ := hr
    exact hq q hmem

/-- C3 witness: a single-interface enumeration, with the lookup
environment set to an error that is never consulted. -/
theorem C3_local_enumeration_witness :
    (getIpAddresses false false
      { publicResp := .error "boom",
        interfacesResult := .ok (okIfaces [("eth0", ["192.168.1.5/24"])]) }
      = (some (localRecords [("eth0", ["192.168.1.5/24"])]), none))
    ∧ ((localRecords [("eth0", ["192.168.1.5/24"])]).all
        fun r => r.Interface != "public") = true :=
  ⟨(C3_local_enumeration (.error "boom") [("eth0", ["192.168.1.5/24"])]).1,
   (C3_local_enumeration (.error "boom") [("eth0", ["192.168.1.5/24"])]).2 (by decide)⟩

/-- C4: whenever any collection step fails — `getIpAddresses` reports an
error — `run` aborts with exactly that error and the process prints zero
data lines and exits with code 1, whatever was collected before the
failure. -/
theorem C4_fail_fast (p a j : Bool) (env : Env) (e : String)
    (h : (getIpAddresses p a env).snd = some e) :
    run p a j env = .error e ∧ mainRun p a j env = (1, []) := by
  rcases hg : getIpAddresses p a env with ⟨s, o⟩
  rw [hg] at h
  have ho : o = some e := h
  subst ho
  constructor
  · simp [run, hg]
  · simp [mainRun, run, hg]

/-- C4 witness: `all=true`, the public lookup succeeds, the interface
enumeration then fails: no data line is printed and the exit code is 1
even though a public record had been fetched. -/
theorem C4_fail_fast_witness :
    run false true false
      { publicResp := .ok "203.0.113.7\n", interfacesResult := .error "enum failed" }
      = .error "enum failed"
    ∧ mainRun false true false
      { publicResp := .ok "203.0.113.7\n", interfacesResult := .error "enum failed" }
      = (1, []) :=
  C4_fail_fast false true false
    { publicResp := .ok "203.0.113.7\n", interfacesResult := .error "enum failed" }
    "enum failed" (by decide)

/-- C5 as stated is refuted at `logLevel = 3`: the switch's `default`
branch selects info, not debug, for every value above 2. -/
theorem C5_counterexample :
    handlerLevel 3 = LogLevel.info ∧ handlerLevel 3 ≠ LogLevel.debug := by
  decide

/-- C5 (amended): the log-level switch maps 0 to warn, 1 to info,
exactly 2 to debug, and every value 3 or higher to info (the default
branch). -/
theorem C5_log_level_mapping :
    handlerLevel 0 = LogLevel.warn ∧ handlerLevel 1 = LogLevel.info
    ∧ handlerLevel 2 = LogLevel.debug
    ∧ ∀ n, 3 ≤ n → handlerLevel n = LogLevel.info := by
  refine ⟨rfl, rfl, rfl, ?_⟩
  intro n hn
  obtain ⟨m, rfl⟩ : ∃ m, n = m + 3 := ⟨n - 3, by omega⟩
  rfl

/-- C5 witness: level 7 falls in the default branch, mapped to info. -/
theorem C5_log_level_mapping_witness : handlerLevel 7 = LogLevel.info :=
  C5_log_level_mapping.2.2.2 7 (by norm_num)

/-- C6: whenever collection succeeds with slice `s` and `jsonOutput` is
set, the program prints exactly one line, the Go JSON encoding of `s` as
an array of objects with capitalized `Address` and `Interface` fields in
collection order; on the spec's example records the line is exactly the
spec's example string. (In the embedding the encoder is total — Lean
strings are valid Unicode, so `json.Marshal` cannot fail on this type —
and a marshal error would take the same fatal return path as a collection
error.) -/
theorem C6_json_single_line (p a : Bool) (env : Env) (s : GoSlice)
    (h : getIpAddresses p a env = (s, none)) :
    run p a true env = .ok [goMarshal s]
    ∧ goMarshal (some [{ Address := "192.168.1.5/24", Interface := "eth0" },
        { Address := "127.0.0.1/8", Interface := "lo" }])
      = "[\x7b\"Address\":\"192.168.1.5/24\",\"Interface\":\"eth0\"\x7d,\x7b\"Address\":\"127.0.0.1/8\",\"Interface\":\"lo\"\x7d]" := by
  constructor
  · simp [run, h]
  · decide

/-- C6 witness: the spec's two-interface example, `-json` set. -/
theorem C6_json_single_line_witness :
    run false false true
      { publicResp := .error "unused",
        interfacesResult :=
          .ok (okIfaces [("eth0", ["192.168.1.5/24"]), ("lo", ["127.0.0.1/8"])]) }
      = .ok [goMarshal (some [{ Address := "192.168.1.5/24", Interface := "eth0" },
          { Address := "127.0.0.1/8", Interface := "lo" }])] :=
  (C6_json_single_line false false
    { publicResp := .error "unused",
      interfacesResult :=
        .ok (okIfaces [("eth0", ["192.168.1.5/24"]), ("lo", ["127.0.0.1/8"])]) }
    (some [{ Address := "192.168.1.5/24", Interface := "eth0" },
      { Address := "127.0.0.1/8", Interface := "lo" }])
    (by decide)).1

/-- C7: whenever collection succeeds with records `l` and `jsonOutput` is
not set, the program prints exactly one line per record, in collection
order, each line being the record's Address, a tab, then its Interface. -/
theorem C7_text_lines (p a : Bool) (env : Env) (l : List Ip)
    (h : getIpAddresses p a env = (some l, none)) :
    run p a false env = .ok (l.map ipString)
    ∧ ∀ i : Ip, ipString i = i.Address ++ "\t" ++ i.Interface := by
  constructor
  · simp [run, h, GoSlice.toList]
  · intro i
    rfl

/-- C7 witness: the spec's two-interface example in text mode. -/
theorem C7_text_lines_witness :
    run false false false
      { publicResp := .error "unused",
        interfacesResult :=
          .ok (okIfaces [("eth0", ["192.168.1.5/24"]), ("lo", ["127.0.0.1/8"])]) }
      = .ok ([{ Address := "192.168.1.5/24", Interface := "eth0" },
          { Address := "127.0.0.1/8", Interface := "lo" }].map ipString) :=
  (C7_text_lines false false
    { publicResp := .error "unused",
      interfacesResult :=
        .ok (okIfaces [("eth0", ["192.168.1.5/24"]), ("lo", ["127.0.0.1/8"])]) }
    [{ Address := "192.168.1.5/24", Interface := "eth0" },
     { Address := "127.0.0.1/8", Interface := "lo" }]
    (by decide)).1

/-- C8: in the interface loop an interface whose address list is empty is
skipped and contributes zero records, and on a fully successful
enumeration every interface contributes exactly one record per address,
in order. -/
theorem C8_empty_interface_skipped (acc : GoSlice) (n : String) (rest : List NetIface)
    (ifs : List (String × List String)) :
    collectLocal acc ({ name := n, addrsResult := .ok [] } :: rest) = collectLocal acc rest
    ∧ collectLocal (some []) (okIfaces ifs) = (some (localRecords ifs), none) := by
  constructor
  · rfl
  · simpa using collectLocal_ok ifs []

/-- C9: when collection succeeds with zero records the process exits 0
and prints exactly the line `[]` in JSON mode (two characters — never the
JSON literal `null`, since the slice is created non-nil and
`getIpAddresses` always returns a non-nil slice) and nothing at all in
text mode. -/
theorem C9_empty_collection (p a pn an : Bool) (env envn : Env)
    (h : getIpAddresses p a env = (some [], none)) :
    mainRun p a true env = (0, ["[]"]) ∧ mainRun p a false env = (0, [])
    ∧ goMarshal (some []) = "[]" ∧ goMarshal none = "null"
    ∧ (getIpAddresses pn an envn).fst ≠ none := by
  have hm : goMarshal (some []) = "[]" := by decide
  refine ⟨?_, ?_, hm, rfl, ?_⟩
  · simp [mainRun, run, h, hm]
  · simp [mainRun, run, h, GoSlice.toList]
  · obtain ⟨l, hl⟩ := getIpAddresses_fst_some pn an envn
    simp [hl]

/-- C9 witness: an enumeration reporting no interfaces at all, with flags
off, and for the non-nil part a run whose enumeration fails. -/
theorem C9_empty_collection_witness :
    mainRun false false true
      { publicResp := .error "unused", interfacesResult := .ok [] } = (0, ["[]"])
    ∧ mainRun false false false
      { publicResp := .error "unused", interfacesResult := .ok [] } = (0, [])
    ∧ goMarshal (some []) = "[]" ∧ goMarshal none = "null"
    ∧ (getIpAddresses true true
        { publicResp := .ok "203.0.113.9", interfacesResult := .error "down" }).fst ≠ none :=
  C9_empty_collection false false true true
    { publicResp := .error "unused", interfacesResult := .ok [] }
    { publicResp := .ok "203.0.113.9", interfacesResult := .error "down" }
    (by decide)

/-- C10: `getPublicIp` never pairs a nil record with a nil error, so the
nil-check at the call site is unreachable on the success path; and in
every run with `public` or `all` set whose lookup succeeds, the public
record — trimmed body, label `"public"` — sits at the head of the
collected slice, appended exactly once before any local record. -/
theorem C10_public_record_first (p a : Bool) (env : Env) (body : String)
    (hpa : (p || a) = true) (hok : env.publicResp = .ok body) :
    (∀ e : Env, (getPublicIp e).snd = none → (getPublicIp e).fst ≠ none)
    ∧ (GoSlice.toList (getIpAddresses p a env).fst).head?
        = some { Address := trimSpace body, Interface := "public" } := by
  constructor
  · intro e he
    rcases hm : e.publicResp with er | b
    · simp [getPublicIp, hm] at he
    · simp [getPublicIp, hm]
  · have e1 : getIpAddresses p a env
        = localStage p a env (some [{ Address := trimSpace body, Interface := "public" }]) := by
      unfold getIpAddresses getPublicIp
      rw [hok]
      simp [hpa, GoSlice.append]
    rw [e1]
    obtain ⟨l, hl⟩ :=
      localStage_fst_extends p a env [{ Address := trimSpace body, Interface := "public" }]
    rw [hl]
    simp [GoSlice.toList]

/-- C10 witness: `public=true`, the lookup succeeds (body with a trailing
newline), the interface table is even unavailable; the head of the
collected slice is the trimmed public record. -/
theorem C10_public_record_first_witness :
    (GoSlice.toList (getIpAddresses true false
      { publicResp := .ok "203.0.113.7\n", interfacesResult := .error "down" }).fst).head?
      = some { Address := trimSpace "203.0.113.7\n", Interface := "public" } :=
  (C10_public_record_first true false
    { publicResp := .ok "203.0.113.7\n", interfacesResult := .error "down" }
    "203.0.113.7\n" (by decide) rfl).2

end Ips
